import Mathlib

/-!
Verification of the watermill-sql SQLite adapters: the message-store schema
adapter (`schema_adapter_sqlite.go`) and the offsets adapter
(`offsets_adapter_sqlite.go`).  Both adapters only compose SQL statements
(text plus positional arguments); the statement builders are embedded
verbatim below, and small interpreters give the SQL meaning of the fixed
statement templates so that the behavioural claims can be stated.
-/

/-- A positional SQL argument: the adapters bind strings and integer offsets. -/
inductive SqlArg where
  | s (v : String)
  | i (v : Int)
deriving DecidableEq

/-- The package's `Query` struct: statement text plus positional arguments. -/
structure Query where
  Query : String
  Args : List SqlArg
deriving DecidableEq

/-- Character-list strings, used for the JSON metadata codec. -/
abbrev Str := List Char

/-- The message entity of the external watermill message library (spec §6
collaborator): identifier, payload, string-keyed metadata mapping.  The Go
`map[string]string` is modelled as an association list. -/
structure Msg where
  UUID : String
  Payload : String
  Metadata : List (Str × Str)
deriving DecidableEq

/-- The package's `Row` struct: the scanned columns of a fetched message row
plus the decoded message (`Msg` is a nillable pointer in Go, hence `Option`). -/
structure Row where
  Offset : Int
  UUID : String
  Payload : String
  Metadata : Option String
  Msg : Option Msg
deriving DecidableEq

/-- Go zero value `Row\x7b\x7d`, returned by the failure paths of
`UnmarshalMessage`. -/
def emptyRow : Row := ⟨0, "", "", none, none⟩

/-- The four columns scanned positionally by `UnmarshalMessage`
(`offset, uuid, payload, metadata`); `metadata` is a nullable blob. -/
structure Scanned where
  Offset : Int
  UUID : String
  Payload : String
  Metadata : Option String
deriving DecidableEq

/-- The `OffsetsAdapter` interface surface consumed by `SelectQuery`: the
claim subquery builder `NextOffsetQuery(topic, consumerGroup)`. -/
structure OffsetsAdapter where
  NextOffsetQuery : String → String → Query

/-- `DefaultSQLiteSchema` struct: optional table-name strategy (Go nil
function pointer) and the configured batch size (Go `int`, zero when unset). -/
structure DefaultSQLiteSchema where
  GenerateMessagesTableName : Option (String → String)
  SubscribeBatchSize : Int

/-- `DefaultSQLiteOffsetsAdapter` struct: optional offsets-table-name
strategy. -/
structure DefaultSQLiteOffsetsAdapter where
  GenerateMessagesOffsetsTableName : Option (String → String)

/-- `MessagesTable`: the override when given, else
`fmt.Sprintf("\x60watermill_%s\x60", topic)`. -/
def DefaultSQLiteSchema.MessagesTable (s : DefaultSQLiteSchema) (topic : String) : String :=
  match s.GenerateMessagesTableName with
  | some f => f topic
  | none => "`watermill_" ++ topic ++ "`"

/-- Go `strings.Join(elems, sep)`. -/
def strJoin (sep : String) : List String → String
  | [] => ""
  | [x] => x
  | x :: y :: xs => x ++ sep ++ strJoin sep (y :: xs)

/-- Go `strings.Repeat(s, n)`. -/
def repeatStr (s : String) : Nat → String
  | 0 => ""
  | n + 1 => s ++ repeatStr s n

/-- Go `strings.TrimRight(s, ",")`: drop every trailing comma. -/
def trimRightCommas (s : String) : String :=
  String.mk ((s.data.reverse.dropWhile (fun c => c = ',')).reverse)

/-- `DefaultSQLiteSchema.SchemaInitializingQueries`: one create-if-not-exists
statement for the per-topic messages table, no bound arguments. -/
def DefaultSQLiteSchema.SchemaInitializingQueries (s : DefaultSQLiteSchema) (topic : String) :
    List Query :=
  [{ Query := strJoin "\n"
      ["CREATE TABLE IF NOT EXISTS " ++ s.MessagesTable topic ++ " (",
       "`offset` INTEGER NOT NULL AUTOINCREMENT PRIMARY KEY,",
       "`uuid` TEXT NOT NULL,",
       "`created_at` TEXT NOT NULL,",
       "`payload` BLOB DEFAULT NULL,",
       "`metadata` BLOB DEFAULT NULL",
       ");"],
     Args := [] }]

/-- The argument-building loop of `InsertQuery`, generic in the external JSON
encoder (`json.Marshal`, a spec §1 external collaborator): appends
`(uuid, payload, metadata)` per message and aborts on the first marshal
failure with the wrapped error. -/
def insertArgs (marshal : List (Str × Str) → Except String String) :
    List Msg → Except String (List SqlArg)
  | [] => .ok []
  | m :: ms =>
    match marshal m.Metadata with
    | .error e =>
        .error ("could not marshal metadata into JSON for message " ++ m.UUID ++ ": " ++ e)
    | .ok md =>
      match insertArgs marshal ms with
      | .error e => .error e
      | .ok rest => .ok (.s m.UUID :: .s m.Payload :: .s md :: rest)

/-- `InsertQuery`, generic in the metadata encoder: the Go function returns
`(Query, error)`, modelled as a pair of the query and an optional error. -/
def DefaultSQLiteSchema.insertQueryWith (marshal : List (Str × Str) → Except String String)
    (s : DefaultSQLiteSchema) (topic : String) (msgs : List Msg) : Query × Option String :=
  let insertQuery := "INSERT INTO " ++ s.MessagesTable topic ++
    " (uuid, payload, metadata) VALUES " ++ trimRightCommas (repeatStr "(?,?,?)," msgs.length)
  match insertArgs marshal msgs with
  | .error e => (⟨"", []⟩, some e)
  | .ok args => (⟨insertQuery, args⟩, none)

/-- JSON escaping of one metadata character: quote and backslash are
backslash-escaped, every other character is kept (modelled collaborator
`json.Marshal` on string-to-string mappings). -/
def escChar (c : Char) : List Char :=
  if c = '\"' ∨ c = '\\' then ['\\', c] else [c]

/-- JSON escaping of a metadata string body. -/
def escStr (s : Str) : List Char := (s.map escChar).flatten

/-- A JSON string literal: quoted escaped body. -/
def encStr (s : Str) : List Char := '\"' :: (escStr s ++ ['\"'])

/-- One `"key":"value"` member of the metadata object. -/
def encPair (p : Str × Str) : List Char := encStr p.1 ++ ':' :: encStr p.2

/-- Remaining members of the metadata object, each preceded by a comma, with
the closing brace. -/
def encItems : List (Str × Str) → List Char
  | [] => ['\x7d']
  | p :: ps => ',' :: (encPair p ++ encItems ps)

/-- JSON encoding of a metadata mapping, as `json.Marshal` renders a
`map[string]string`: a brace-delimited, comma-separated object. -/
def encMeta : List (Str × Str) → List Char
  | [] => ['\x7b', '\x7d']
  | p :: ps => '\x7b' :: (encPair p ++ encItems ps)

/-- The modelled `json.Marshal` on metadata mappings: total for
string-to-string mappings, as in Go. -/
def jsonMarshalMeta (md : List (Str × Str)) : Except String String :=
  .ok (String.mk (encMeta md))

/-- `InsertQuery` with the modelled JSON encoder. -/
def DefaultSQLiteSchema.InsertQuery (s : DefaultSQLiteSchema) (topic : String)
    (msgs : List Msg) : Query × Option String :=
  s.insertQueryWith jsonMarshalMeta topic msgs

/-- JSON string-body decoding after the opening quote: a backslash takes the
next character literally, an unescaped quote ends the literal, anything else
is kept; fails on exhausted input (modelled collaborator `json.Unmarshal`). -/
def parseJStr : List Char → Option (Str × List Char)
  | [] => none
  | c :: rest =>
    if c = '\\' then
      match rest with
      | [] => none
      | d :: rest2 => (parseJStr rest2).map (fun p => (d :: p.1, p.2))
    else if c = '\"' then some ([], rest)
    else (parseJStr rest).map (fun p => (c :: p.1, p.2))

/-- A quoted JSON string literal. -/
def parseQStr : List Char → Option (Str × List Char)
  | '\"' :: rest => parseJStr rest
  | _ => none

/-- One `"key":"value"` member. -/
def parsePairItem (l : List Char) : Option ((Str × Str) × List Char) :=
  match parseQStr l with
  | some (k, ':' :: r) =>
    match parseQStr r with
    | some (v, r2) => some ((k, v), r2)
    | none => none
  | _ => none

/-- The members of a non-empty object after the opening brace, fuelled by the
input length; each member is followed by a comma or the closing brace. -/
def parsePairsAux : Nat → List Char → Option (List (Str × Str) × List Char)
  | 0, _ => none
  | fuel + 1, l =>
    match parsePairItem l with
    | none => none
    | some (p, rest) =>
      match rest with
      | '\x7d' :: rest2 => some ([p], rest2)
      | ',' :: rest2 => (parsePairsAux fuel rest2).map (fun q => (p :: q.1, q.2))
      | _ => none

/-- JSON decoding of a metadata blob into a string-to-string mapping: the
whole input must be one object, otherwise the decode fails (modelled
collaborator `json.Unmarshal` into a `map[string]string`). -/
def decodeMeta (l : List Char) : Option (List (Str × Str)) :=
  match l with
  | '\x7b' :: '\x7d' :: rest => if rest = [] then some [] else none
  | '\x7b' :: rest =>
    match parsePairsAux (rest.length + 1) rest with
    | some (ps, []) => some ps
    | _ => none
  | _ => none

/-- `batchSize`: the configured `SubscribeBatchSize`, defaulting to 100 when
it is the zero value. -/
def DefaultSQLiteSchema.batchSize (s : DefaultSQLiteSchema) : Int :=
  if s.SubscribeBatchSize = 0 then 100 else s.SubscribeBatchSize

/-- `SelectQuery`: the fetch statement, embedding the offset tracker's claim
subquery as the strict lower bound on `offset`, ordered ascending and limited
to the batch size; the subquery's arguments are passed through. -/
def DefaultSQLiteSchema.SelectQuery (s : DefaultSQLiteSchema) (topic consumerGroup : String)
    (offsetsAdapter : OffsetsAdapter) : Query :=
  let nextOffsetQuery := offsetsAdapter.NextOffsetQuery topic consumerGroup
  let selectQuery :=
    "\n\t\tSELECT offset, uuid, payload, metadata FROM " ++ s.MessagesTable topic ++
    "\n\t\tWHERE \n\t\t\toffset > (" ++ nextOffsetQuery.Query ++
    ")\n\t\tORDER BY \n\t\t\toffset ASC\n\t\tLIMIT " ++ toString s.batchSize
  { Query := selectQuery, Args := nextOffsetQuery.Args }

/-- `UnmarshalMessage`: scan the four columns (the scan itself may fail),
build the message entity (the external constructor initialises an empty
metadata mapping), decode the metadata blob when it is non-null, and return
the populated row; failure paths return the zero row and an error. -/
def DefaultSQLiteSchema.UnmarshalMessage (s : DefaultSQLiteSchema)
    (row : Except String Scanned) : Row × Option String :=
  match row with
  | .error e => (emptyRow, some ("could not scan message row: " ++ e))
  | .ok r =>
    match r.Metadata with
    | none => (⟨r.Offset, r.UUID, r.Payload, none, some ⟨r.UUID, r.Payload, []⟩⟩, none)
    | some blob =>
      match decodeMeta blob.data with
      | none => (emptyRow, some "could not unmarshal metadata as JSON")
      | some md => (⟨r.Offset, r.UUID, r.Payload, some blob, some ⟨r.UUID, r.Payload, md⟩⟩, none)

/-- `MessagesOffsetsTable`: the override when given, else
`fmt.Sprintf("\x60watermill_offsets_%s\x60", topic)`. -/
def DefaultSQLiteOffsetsAdapter.MessagesOffsetsTable (a : DefaultSQLiteOffsetsAdapter)
    (topic : String) : String :=
  match a.GenerateMessagesOffsetsTableName with
  | some f => f topic
  | none => "`watermill_offsets_" ++ topic ++ "`"

/-- `DefaultSQLiteOffsetsAdapter.SchemaInitializingQueries`: one
create-if-not-exists statement for the per-topic offsets table, keyed by
`consumer_group`, no bound arguments. -/
def DefaultSQLiteOffsetsAdapter.SchemaInitializingQueries (a : DefaultSQLiteOffsetsAdapter)
    (topic : String) : List Query :=
  [{ Query := "\n\t\t\t\tCREATE TABLE IF NOT EXISTS " ++ a.MessagesOffsetsTable topic ++
      " (\n\t\t\t\tconsumer_group TEXT NOT NULL,\n\t\t\t\toffset_acked INTEGER,\n\t\t\t\toffset_consumed INTEGER NOT NULL,\n\t\t\t\tPRIMARY KEY(consumer_group)\n\t\t\t)",
     Args := [] }]

/-- `AckMessageQuery`: upsert of both watermarks to the row's offset, binding
the offset twice and the consumer group. -/
def DefaultSQLiteOffsetsAdapter.AckMessageQuery (a : DefaultSQLiteOffsetsAdapter)
    (topic : String) (row : Row) (consumerGroup : String) : Query :=
  let ackQuery := "INSERT INTO " ++ a.MessagesOffsetsTable topic ++
    " (offset_consumed, offset_acked, consumer_group)\n\t\tVALUES (?, ?, ?) ON DUPLICATE KEY UPDATE offset_consumed=VALUES(offset_consumed), offset_acked=VALUES(offset_acked)"
  { Query := ackQuery, Args := [.i row.Offset, .i row.Offset, .s consumerGroup] }

/-- `NextOffsetQuery`: the claim subquery, coalescing the group's
`offset_acked` to 0 and locking the group's row `FOR UPDATE`, binding the
consumer group. -/
def DefaultSQLiteOffsetsAdapter.NextOffsetQuery (a : DefaultSQLiteOffsetsAdapter)
    (topic consumerGroup : String) : Query :=
  { Query := "SELECT COALESCE(\n\t\t\t\t(SELECT offset_acked\n\t\t\t\t FROM " ++
      a.MessagesOffsetsTable topic ++
      "\n\t\t\t\t WHERE consumer_group=? FOR UPDATE\n\t\t\t\t), 0)",
    Args := [.s consumerGroup] }

/-- `ConsumedMessageQuery`: upsert of `offset_consumed` only, binding the
row's offset and the consumer group; the `consumerULID` parameter is unused. -/
def DefaultSQLiteOffsetsAdapter.ConsumedMessageQuery (a : DefaultSQLiteOffsetsAdapter)
    (topic : String) (row : Row) (consumerGroup : String) (consumerULID : String) : Query :=
  let ackQuery := "INSERT INTO " ++ a.MessagesOffsetsTable topic ++
    " (offset_consumed, consumer_group)\n\t\tVALUES (?, ?) ON DUPLICATE KEY UPDATE offset_consumed=VALUES(offset_consumed)"
  { Query := ackQuery, Args := [.i row.Offset, .s consumerGroup] }

/-- `BeforeSubscribingQueries`: no statements. -/
def DefaultSQLiteOffsetsAdapter.BeforeSubscribingQueries (a : DefaultSQLiteOffsetsAdapter)
    (topic consumerGroup : String) : List Query := []

/-- The `OffsetsAdapter` interface view of the default offsets adapter. -/
def DefaultSQLiteOffsetsAdapter.asOffsetsAdapter (a : DefaultSQLiteOffsetsAdapter) :
    OffsetsAdapter := ⟨a.NextOffsetQuery⟩

/-- A row of a per-(topic) offsets table: keyed by `consumer_group`, with the
nullable acknowledged watermark and the consumed watermark. -/
structure OffsetRow where
  consumer_group : String
  offset_acked : Option Int
  offset_consumed : Int
deriving DecidableEq

/-- Primary-key lookup in an offsets table. -/
def findRow (offsets : List OffsetRow) (group : String) : Option OffsetRow :=
  offsets.find? (fun r => r.consumer_group = group)

/-- SQL meaning of the claim statement template built by `NextOffsetQuery`:
`COALESCE((SELECT offset_acked ... WHERE consumer_group=?), 0)` reads the
group's acknowledged offset, with a missing row or a NULL column coalesced
to 0. -/
def nextOffsetSem (offsets : List OffsetRow) (group : String) : Int :=
  match findRow offsets group with
  | none => 0
  | some r => r.offset_acked.getD 0

/-- SQL meaning of the upsert template built by `AckMessageQuery`: insert the
row `(off, off, group)`, or on a duplicate `consumer_group` key set both
`offset_consumed` and `offset_acked` to `off`. -/
def upsertBothSem : List OffsetRow → String → Int → List OffsetRow
  | [], group, off => [⟨group, some off, off⟩]
  | r :: rest, group, off =>
    if r.consumer_group = group then ⟨r.consumer_group, some off, off⟩ :: rest
    else r :: upsertBothSem rest group off

/-- SQL meaning of the upsert template built by `ConsumedMessageQuery`:
insert the row `(off, group)` (leaving `offset_acked` NULL), or on a
duplicate `consumer_group` key set only `offset_consumed` to `off`. -/
def upsertConsumedSem : List OffsetRow → String → Int → List OffsetRow
  | [], group, off => [⟨group, none, off⟩]
  | r :: rest, group, off =>
    if r.consumer_group = group then ⟨r.consumer_group, r.offset_acked, off⟩ :: rest
    else r :: upsertConsumedSem rest group off

/-- The filtered and ordered part of the fetch statement's meaning: the
message rows with `offset` strictly above the bound, sorted by `offset`
ascending. -/
def sortedFetch (tbl : List Scanned) (bound : Int) : List Scanned :=
  List.insertionSort (fun a b => a.Offset ≤ b.Offset) (tbl.filter (fun r => bound < r.Offset))

/-- SQL meaning of the fetch statement template built by `SelectQuery`:
filter on `offset > bound`, order by `offset` ascending, apply `LIMIT lim`
(in SQLite a negative limit means no limit). -/
def fetchSem (tbl : List Scanned) (bound lim : Int) : List Scanned :=
  if lim < 0 then sortedFetch tbl bound else (sortedFetch tbl bound).take lim.toNat

/-- A database schema state: extant tables with their (opaque) rows. -/
structure Db where
  tables : List (String × List (List SqlArg))
deriving DecidableEq

/-- SQL meaning of a `CREATE TABLE IF NOT EXISTS name ...` statement: a
no-op when the table exists, otherwise it creates the empty table; it never
fails. -/
def runCreateTableIfNotExists (db : Db) (name : String) : Option Db :=
  if db.tables.any (fun t => t.1 = name) then some db
  else some ⟨db.tables ++ [(name, [])]⟩

instance : DecidableRel (fun a b : Scanned => a.Offset ≤ b.Offset) :=
  fun a b => Int.decLe a.Offset b.Offset

instance : IsTotal Scanned (fun a b => a.Offset ≤ b.Offset) :=
  ⟨fun a b => Int.le_total a.Offset b.Offset⟩

instance : IsTrans Scanned (fun a b => a.Offset ≤ b.Offset) :=
  ⟨fun _ _ _ h1 h2 => le_trans h1 h2⟩

lemma escStr_cons (a : Char) (s : Str) : escStr (a :: s) = escChar a ++ escStr s := by
  simp [escStr]

lemma parseJStr_quote (rest : List Char) : parseJStr ('\"' :: rest) = some ([], rest) := by
  rw [parseJStr.eq_def]
  simp only [if_neg (show ¬ ('\"' = '\\') by decide), if_pos (rfl : '\"' = '\"'), ite_true,
    eq_self_iff_true]

lemma parseJStr_escaped (d : Char) (rest : List Char) :
    parseJStr ('\\' :: d :: rest) = (parseJStr rest).map (fun p => (d :: p.1, p.2)) := by
  rw [parseJStr.eq_def]
  simp only [if_pos (rfl : '\\' = '\\'), ite_true, eq_self_iff_true]

lemma parseJStr_other (c : Char) (rest : List Char) (h1 : ¬ c = '\\') (h2 : ¬ c = '\"') :
    parseJStr (c :: rest) = (parseJStr rest).map (fun p => (c :: p.1, p.2)) := by
  rw [parseJStr.eq_def]
  simp only [if_neg h1, if_neg h2]

lemma parseJStr_escStr (s : Str) (rest : List Char) :
    parseJStr (escStr s ++ '\"' :: rest) = some (s, rest) := by
  induction s with
  | nil =>
    rw [show escStr [] = [] from rfl, List.nil_append]
    exact parseJStr_quote rest
  | cons a s ih =>
    rw [escStr_cons]
    by_cases h : a = '\"' ∨ a = '\\'
    · rw [show escChar a = ['\\', a] from if_pos h]
      simp only [List.cons_append, List.nil_append]
      rw [parseJStr_escaped, ih]
      rfl
    · push_neg at h
      rw [show escChar a = [a] from if_neg (by tauto)]
      simp only [List.cons_append, List.nil_append]
      rw [parseJStr_other a _ h.2 h.1, ih]
      rfl

lemma parseQStr_encStr (s : Str) (rest : List Char) :
    parseQStr (encStr s ++ rest) = some (s, rest) := by
  have h1 : encStr s ++ rest = '\"' :: (escStr s ++ '\"' :: rest) := by
    simp [encStr]
  rw [h1]
  rw [show ∀ l, parseQStr ('\"' :: l) = parseJStr l from fun l => rfl]
  exact parseJStr_escStr s rest

lemma parsePairItem_encPair (p : Str × Str) (rest : List Char) :
    parsePairItem (encPair p ++ rest) = some (p, rest) := by
  have h1 : encPair p ++ rest = encStr p.1 ++ (':' :: (encStr p.2 ++ rest)) := by
    simp [encPair]
  unfold parsePairItem
  rw [h1, parseQStr_encStr]
  simp [parseQStr_encStr]

lemma parsePairsAux_succ (n : Nat) (l : List Char) :
    parsePairsAux (n + 1) l =
      match parsePairItem l with
      | none => none
      | some (p, rest) =>
        match rest with
        | '\x7d' :: rest2 => some ([p], rest2)
        | ',' :: rest2 => (parsePairsAux n rest2).map (fun q => (p :: q.1, q.2))
        | _ => none := rfl

lemma encItems_len (ps : List (Str × Str)) : ps.length ≤ (encItems ps).length := by
  induction ps with
  | nil => simp [encItems]
  | cons q qs ih =>
    simp only [encItems, List.length_cons, List.length_append]
    omega

lemma parsePairsAux_enc : ∀ (ps : List (Str × Str)) (p : Str × Str) (n : Nat),
    ps.length ≤ n →
    parsePairsAux (n + 1) (encPair p ++ encItems ps) = some (p :: ps, []) := by
  intro ps
  induction ps with
  | nil =>
    intro p n _
    rw [parsePairsAux_succ, show encItems [] = ['\x7d'] from rfl, parsePairItem_encPair]
    rfl
  | cons q qs ih =>
    intro p n h
    obtain ⟨m, rfl⟩ : ∃ m, n = m + 1 := ⟨n - 1, by simp at h; omega⟩
    rw [parsePairsAux_succ, show encItems (q :: qs) = ',' :: (encPair q ++ encItems qs) from rfl,
      parsePairItem_encPair]
    have hq := ih q m (by simp at h; omega)
    simp only [hq]
    rfl

lemma decodeMeta_quote (t : List Char) :
    decodeMeta ('\x7b' :: '\"' :: t) =
      match parsePairsAux (('\"' :: t).length + 1) ('\"' :: t) with
      | some (ps, []) => some ps
      | _ => none := rfl

/-- The metadata codec round trip: decoding an encoded mapping recovers it. -/
lemma decodeMeta_encMeta (md : List (Str × Str)) : decodeMeta (encMeta md) = some md := by
  cases md with
  | nil => decide
  | cons p ps =>
    have hhead : encPair p ++ encItems ps =
        '\"' :: ((escStr p.1 ++ ['\"']) ++ (':' :: encStr p.2 ++ encItems ps)) := by
      simp [encPair, encStr, List.append_assoc]
    rw [show encMeta (p :: ps) = '\x7b' :: (encPair p ++ encItems ps) from rfl]
    rw [hhead, decodeMeta_quote, ← hhead]
    have hlen : ps.length ≤ (encPair p ++ encItems ps).length := by
      have := encItems_len ps
      simp only [List.length_append]
      omega
    rw [parsePairsAux_enc ps p _ hlen]

lemma insertArgs_ok (marshal : List (Str × Str) → Except String String) (enc : Msg → String) :
    ∀ msgs : List Msg, (∀ m ∈ msgs, marshal m.Metadata = .ok (enc m)) →
    insertArgs marshal msgs =
      .ok ((msgs.map (fun m => [SqlArg.s m.UUID, SqlArg.s m.Payload, SqlArg.s (enc m)])).flatten) := by
  intro msgs
  induction msgs with
  | nil => intro _; rfl
  | cons m ms ih =>
    intro h
    have hm : marshal m.Metadata = .ok (enc m) := h m (List.mem_cons_self m ms)
    have hms := ih (fun x hx => h x (List.mem_cons_of_mem m hx))
    simp only [insertArgs, hm, hms, List.map_cons, List.flatten_cons, List.cons_append,
      List.nil_append]

lemma insertArgs_err (marshal : List (Str × Str) → Except String String) :
    ∀ msgs : List Msg, (∃ m ∈ msgs, ∃ e, marshal m.Metadata = .error e) →
    ∃ m ∈ msgs, ∃ e, marshal m.Metadata = .error e ∧
      insertArgs marshal msgs =
        .error ("could not marshal metadata into JSON for message " ++ m.UUID ++ ": " ++ e) := by
  intro msgs
  induction msgs with
  | nil => rintro ⟨m, hm, _⟩; cases hm
  | cons m ms ih =>
    rintro ⟨m0, hm0, e0, he0⟩
    cases hmm : marshal m.Metadata with
    | error e =>
      exact ⟨m, List.mem_cons_self m ms, e, hmm, by simp only [insertArgs, hmm]⟩
    | ok v =>
      have hm0ms : m0 ∈ ms := by
        rcases List.mem_cons.mp hm0 with rfl | h
        · rw [hmm] at he0; cases he0
        · exact h
      obtain ⟨m1, hm1, e1, he1, harg⟩ := ih ⟨m0, hm0ms, e0, he0⟩
      exact ⟨m1, List.mem_cons_of_mem m hm1, e1, he1, by simp only [insertArgs, hmm, harg]⟩

lemma findRow_eq_none (offsets : List OffsetRow) (group : String)
    (h : ∀ r ∈ offsets, r.consumer_group ≠ group) : findRow offsets group = none := by
  simp only [findRow, List.find?_eq_none, decide_eq_true_eq]
  exact h

lemma findRow_mem_unique (offsets : List OffsetRow) (group : String) (r : OffsetRow)
    (huniq : offsets.Pairwise (fun x y => x.consumer_group ≠ y.consumer_group))
    (hmem : r ∈ offsets) (hg : r.consumer_group = group) :
    findRow offsets group = some r := by
  induction offsets with
  | nil => cases hmem
  | cons a l ih =>
    rcases List.mem_cons.mp hmem with rfl | hmem2
    · simp only [findRow]
      rw [List.find?_cons_of_pos _ (by simp [hg])]
    · have hne : a.consumer_group ≠ group := by
        have := (List.pairwise_cons.mp huniq).1 r hmem2
        rw [← hg]
        exact this
      have ihr := ih (List.pairwise_cons.mp huniq).2 hmem2
      simp only [findRow] at ihr ⊢
      rw [List.find?_cons_of_neg _ (by simp [hne])]
      exact ihr

lemma upsertBothSem_find (offsets : List OffsetRow) (group : String) (off : Int) :
    findRow (upsertBothSem offsets group off) group = some ⟨group, some off, off⟩ := by
  induction offsets with
  | nil => simp [upsertBothSem, findRow]
  | cons a l ih =>
    by_cases h : a.consumer_group = group
    · simp only [upsertBothSem, if_pos h, findRow]
      rw [List.find?_cons_of_pos _ (by simp [h])]
      simp [h]
    · simp only [upsertBothSem, if_neg h, findRow] at ih ⊢
      rw [List.find?_cons_of_neg _ (by simp [h])]
      exact ih

lemma upsertBothSem_others (offsets : List OffsetRow) (group : String) (off : Int)
    (r : OffsetRow) (hr : r ∈ offsets) (hne : r.consumer_group ≠ group) :
    r ∈ upsertBothSem offsets group off := by
  induction offsets with
  | nil => cases hr
  | cons a l ih =>
    by_cases h : a.consumer_group = group
    · rcases List.mem_cons.mp hr with rfl | hr2
      · exact absurd h hne
      · simp only [upsertBothSem, if_pos h]
        exact List.mem_cons_of_mem _ hr2
    · rcases List.mem_cons.mp hr with rfl | hr2
      · simp only [upsertBothSem, if_neg h]
        exact List.mem_cons_self _ _
      · simp only [upsertBothSem, if_neg h]
        exact List.mem_cons_of_mem _ (ih hr2)

lemma upsertBothSem_others_rev (offsets : List OffsetRow) (group : String) (off : Int)
    (r : OffsetRow) (hr : r ∈ upsertBothSem offsets group off)
    (hne : r.consumer_group ≠ group) : r ∈ offsets := by
  induction offsets with
  | nil =>
    simp only [upsertBothSem, List.mem_singleton] at hr
    exact absurd (by rw [hr]) hne
  | cons a l ih =>
    by_cases h : a.consumer_group = group
    · simp only [upsertBothSem, if_pos h, List.mem_cons] at hr
      rcases hr with rfl | hr2
      · exact absurd h hne
      · exact List.mem_cons_of_mem _ hr2
    · simp only [upsertBothSem, if_neg h, List.mem_cons] at hr
      rcases hr with rfl | hr2
      · exact List.mem_cons_self _ _
      · exact List.mem_cons_of_mem _ (ih hr2)

lemma upsertConsumedSem_find_present (offsets : List OffsetRow) (group : String) (off : Int)
    (r0 : OffsetRow) (h : findRow offsets group = some r0) :
    findRow (upsertConsumedSem offsets group off) group = some ⟨group, r0.offset_acked, off⟩ := by
  induction offsets with
  | nil => simp [findRow] at h
  | cons a l ih =>
    by_cases ha : a.consumer_group = group
    · have har0 : a = r0 := by
        simp only [findRow] at h
        rw [List.find?_cons_of_pos _ (by simp [ha])] at h
        exact Option.some.inj h
      subst har0
      simp only [upsertConsumedSem, if_pos ha, findRow]
      rw [List.find?_cons_of_pos _ (by simp [ha])]
      simp [ha]
    · have h2 : findRow l group = some r0 := by
        simp only [findRow] at h ⊢
        rw [List.find?_cons_of_neg _ (by simp [ha])] at h
        exact h
      have ihr := ih h2
      simp only [upsertConsumedSem, if_neg ha, findRow] at ihr ⊢
      rw [List.find?_cons_of_neg _ (by simp [ha])]
      exact ihr

lemma upsertConsumedSem_absent (offsets : List OffsetRow) (group : String) (off : Int)
    (h : findRow offsets group = none) :
    upsertConsumedSem offsets group off = offsets ++ [⟨group, none, off⟩] := by
  induction offsets with
  | nil => rfl
  | cons a l ih =>
    simp only [findRow, List.find?_eq_none, decide_eq_true_eq] at h
    have ha : a.consumer_group ≠ group := h a (List.mem_cons_self a l)
    have hl : findRow l group = none := by
      simp only [findRow, List.find?_eq_none, decide_eq_true_eq]
      exact fun x hx => h x (List.mem_cons_of_mem a hx)
    simp only [upsertConsumedSem, if_neg ha, ih hl, List.cons_append]

lemma upsertConsumedSem_acked_kept (offsets : List OffsetRow) (group : String) (off : Int)
    (r : OffsetRow) (hr : r ∈ offsets) :
    ∃ r2 ∈ upsertConsumedSem offsets group off,
      r2.consumer_group = r.consumer_group ∧ r2.offset_acked = r.offset_acked := by
  induction offsets with
  | nil => cases hr
  | cons a l ih =>
    by_cases h : a.consumer_group = group
    · rcases List.mem_cons.mp hr with rfl | hr2
      · refine ⟨⟨r.consumer_group, r.offset_acked, off⟩, ?_, rfl, rfl⟩
        simp only [upsertConsumedSem, if_pos h]
        exact List.mem_cons_self _ _
      · refine ⟨r, ?_, rfl, rfl⟩
        simp only [upsertConsumedSem, if_pos h]
        exact List.mem_cons_of_mem _ hr2
    · rcases List.mem_cons.mp hr with rfl | hr2
      · refine ⟨r, ?_, rfl, rfl⟩
        simp only [upsertConsumedSem, if_neg h]
        exact List.mem_cons_self _ _
      · obtain ⟨r2, hm, he1, he2⟩ := ih hr2
        refine ⟨r2, ?_, he1, he2⟩
        simp only [upsertConsumedSem, if_neg h]
        exact List.mem_cons_of_mem _ hm

lemma pairwise_lt_of_le_ne : ∀ l : List Scanned,
    l.Pairwise (fun a b => a.Offset ≤ b.Offset) →
    l.Pairwise (fun a b => a.Offset ≠ b.Offset) →
    l.Pairwise (fun a b => a.Offset < b.Offset)
  | [], _, _ => List.Pairwise.nil
  | a :: l, hle, hne => by
    rw [List.pairwise_cons] at hle hne ⊢
    exact ⟨fun b hb => lt_of_le_of_ne (hle.1 b hb) (hne.1 b hb),
      pairwise_lt_of_le_ne l hle.2 hne.2⟩

lemma mem_sortedFetch (tbl : List Scanned) (bound : Int) (r : Scanned)
    (h : r ∈ sortedFetch tbl bound) : bound < r.Offset := by
  unfold sortedFetch at h
  rw [List.mem_insertionSort] at h
  simpa using (List.mem_filter.mp h).2

lemma sortedFetch_pairwise_lt (tbl : List Scanned) (bound : Int)
    (hnd : tbl.Pairwise (fun a b => a.Offset ≠ b.Offset)) :
    (sortedFetch tbl bound).Pairwise (fun a b => a.Offset < b.Offset) := by
  have hle := List.sorted_insertionSort (fun a b : Scanned => a.Offset ≤ b.Offset)
    (tbl.filter (fun r => bound < r.Offset))
  have hfil : (tbl.filter (fun r => bound < r.Offset)).Pairwise
      (fun a b => a.Offset ≠ b.Offset) :=
    List.Pairwise.sublist (List.filter_sublist _) hnd
  have hperm := List.perm_insertionSort (fun a b : Scanned => a.Offset ≤ b.Offset)
    (tbl.filter (fun r => bound < r.Offset))
  have hne2 : (sortedFetch tbl bound).Pairwise (fun a b => a.Offset ≠ b.Offset) :=
    (hperm.pairwise_iff (fun h => Ne.symm h)).mpr hfil
  exact pairwise_lt_of_le_ne _ hle hne2

lemma fetchSem_mem (tbl : List Scanned) (bound lim : Int) (r : Scanned)
    (h : r ∈ fetchSem tbl bound lim) : bound < r.Offset := by
  unfold fetchSem at h
  by_cases hl : lim < 0
  · rw [if_pos hl] at h
    exact mem_sortedFetch _ _ _ h
  · rw [if_neg hl] at h
    exact mem_sortedFetch _ _ _ ((List.take_sublist _ _).subset h)

lemma fetchSem_pairwise_lt (tbl : List Scanned) (bound lim : Int)
    (hnd : tbl.Pairwise (fun a b => a.Offset ≠ b.Offset)) :
    (fetchSem tbl bound lim).Pairwise (fun a b => a.Offset < b.Offset) := by
  unfold fetchSem
  by_cases hl : lim < 0
  · rw [if_pos hl]
    exact sortedFetch_pairwise_lt tbl bound hnd
  · rw [if_neg hl]
    exact (sortedFetch_pairwise_lt tbl bound hnd).sublist (List.take_sublist _ _)

lemma fetchSem_length (tbl : List Scanned) (bound lim : Int) (h : 0 ≤ lim) :
    (fetchSem tbl bound lim).length ≤ lim.toNat := by
  unfold fetchSem
  rw [if_neg (by omega)]
  simp only [List.length_take]
  exact Nat.min_le_left _ _

/-- Example schema adapter with a configured batch size of 2. -/
def exSchema : DefaultSQLiteSchema := ⟨none, 2⟩

/-- Example schema adapter with the batch size unset. -/
def exSchemaZero : DefaultSQLiteSchema := ⟨none, 0⟩

/-- Example offsets adapter with the default table-name strategy. -/
def exOffsets : DefaultSQLiteOffsetsAdapter := ⟨none⟩

/-- Example offsets adapter seen through the interface. -/
def exOA : OffsetsAdapter := exOffsets.asOffsetsAdapter

/-- Example messages table content (distinct offsets, unsorted). -/
def exTbl : List Scanned := [⟨3, "c", "p3", none⟩, ⟨1, "a", "p1", none⟩, ⟨2, "b", "p2", none⟩]

/-- Example offsets table content. -/
def exOffRows : List OffsetRow := [⟨"g", some 1, 1⟩, ⟨"h", some 7, 7⟩]

/-- C1: the fetch statement composed by SelectQuery selects only rows with
offset strictly greater than the bound produced by the offset tracker's
NextOffsetQuery subquery, orders them by offset ascending, limits the result
to the configured batch size, and passes through exactly the subquery's
arguments. -/
theorem selectQuery_spec (s : DefaultSQLiteSchema) (topic group : String) (oa : OffsetsAdapter) :
    (s.SelectQuery topic group oa).Args = (oa.NextOffsetQuery topic group).Args
    ∧ (s.SelectQuery topic group oa).Query =
        "\n\t\tSELECT offset, uuid, payload, metadata FROM " ++ s.MessagesTable topic ++
        "\n\t\tWHERE \n\t\t\toffset > (" ++ (oa.NextOffsetQuery topic group).Query ++
        ")\n\t\tORDER BY \n\t\t\toffset ASC\n\t\tLIMIT " ++ toString s.batchSize
    ∧ ∀ (offsets : List OffsetRow) (tbl : List Scanned),
        tbl.Pairwise (fun a b => a.Offset ≠ b.Offset) →
        (∀ r ∈ fetchSem tbl (nextOffsetSem offsets group) s.batchSize,
            nextOffsetSem offsets group < r.Offset)
        ∧ (fetchSem tbl (nextOffsetSem offsets group) s.batchSize).Pairwise
            (fun a b => a.Offset < b.Offset)
        ∧ (0 ≤ s.batchSize →
            (fetchSem tbl (nextOffsetSem offsets group) s.batchSize).length ≤
              s.batchSize.toNat) := by
  refine ⟨rfl, rfl, ?_⟩
  intro offsets tbl hnd
  exact ⟨fun r hr => fetchSem_mem _ _ _ r hr, fetchSem_pairwise_lt _ _ _ hnd,
    fun h0 => fetchSem_length _ _ _ h0⟩

theorem selectQuery_spec_witness :
    (fetchSem exTbl (nextOffsetSem exOffRows "g") exSchema.batchSize).length ≤
      exSchema.batchSize.toNat :=
  ((selectQuery_spec exSchema "t" "g" exOA).2.2 exOffRows exTbl (by decide)).2.2 (by decide)

/-- C2: the claim statement produced by NextOffsetQuery returns the group's
acknowledged offset, defaulting to 0 when the group has no row, carries the
exclusive row-lock clause FOR UPDATE, and binds exactly the consumer group. -/
theorem nextOffsetQuery_spec (a : DefaultSQLiteOffsetsAdapter) (topic group : String) :
    (a.NextOffsetQuery topic group).Args = [SqlArg.s group]
    ∧ (a.NextOffsetQuery topic group).Query =
        "SELECT COALESCE(\n\t\t\t\t(SELECT offset_acked\n\t\t\t\t FROM " ++
          a.MessagesOffsetsTable topic ++
          "\n\t\t\t\t WHERE consumer_group=? FOR UPDATE\n\t\t\t\t), 0)"
    ∧ (∃ u v, (a.NextOffsetQuery topic group).Query.data =
        u ++ (" FOR UPDATE".data ++ v))
    ∧ (∀ offsets : List OffsetRow,
        (∀ r ∈ offsets, r.consumer_group ≠ group) → nextOffsetSem offsets group = 0)
    ∧ (∀ (offsets : List OffsetRow) (r : OffsetRow) (v : Int),
        offsets.Pairwise (fun x y => x.consumer_group ≠ y.consumer_group) →
        r ∈ offsets → r.consumer_group = group → r.offset_acked = some v →
        nextOffsetSem offsets group = v) := by
  refine ⟨rfl, rfl, ?_, ?_, ?_⟩
  · refine ⟨"SELECT COALESCE(\n\t\t\t\t(SELECT offset_acked\n\t\t\t\t FROM ".data ++
      ((a.MessagesOffsetsTable topic).data ++ "\n\t\t\t\t WHERE consumer_group=?".data),
      "\n\t\t\t\t), 0)".data, ?_⟩
    have hB : ("\n\t\t\t\t WHERE consumer_group=? FOR UPDATE\n\t\t\t\t), 0)" : String).data =
        "\n\t\t\t\t WHERE consumer_group=?".data ++
          (" FOR UPDATE".data ++ "\n\t\t\t\t), 0)".data) := by decide
    simp only [DefaultSQLiteOffsetsAdapter.NextOffsetQuery, String.data_append, hB,
      List.append_assoc, List.cons_append, List.nil_append]
  · intro offsets h
    rw [nextOffsetSem, findRow_eq_none offsets group h]
  · intro offsets r v huniq hmem hg hv
    rw [nextOffsetSem, findRow_mem_unique offsets group r huniq hmem hg]
    show r.offset_acked.getD 0 = v
    rw [hv]
    rfl

theorem nextOffsetQuery_spec_witness : nextOffsetSem exOffRows "g" = 1 :=
  (nextOffsetQuery_spec exOffsets "t" "g").2.2.2.2 exOffRows ⟨"g", some 1, 1⟩ 1
    (by decide) (by decide) (by decide) (by decide)

/-- Example fetched row. -/
def exRow : Row := ⟨5, "u", "p", none, none⟩

/-- C3: the acknowledge statement produced by AckMessageQuery upserts both
offset_consumed and offset_acked to the processed row's offset, keyed by
consumer_group, binding the row's offset twice plus the consumer group. -/
theorem ackMessageQuery_spec (a : DefaultSQLiteOffsetsAdapter) (topic : String) (row : Row)
    (group : String) :
    (a.AckMessageQuery topic row group).Args =
      [SqlArg.i row.Offset, SqlArg.i row.Offset, SqlArg.s group]
    ∧ (a.AckMessageQuery topic row group).Query =
        "INSERT INTO " ++ a.MessagesOffsetsTable topic ++
        " (offset_consumed, offset_acked, consumer_group)\n\t\tVALUES (?, ?, ?) ON DUPLICATE KEY UPDATE offset_consumed=VALUES(offset_consumed), offset_acked=VALUES(offset_acked)"
    ∧ (∀ offsets : List OffsetRow,
        findRow (upsertBothSem offsets group row.Offset) group =
          some ⟨group, some row.Offset, row.Offset⟩)
    ∧ (∀ (offsets : List OffsetRow) (r : OffsetRow), r ∈ offsets →
        r.consumer_group ≠ group → r ∈ upsertBothSem offsets group row.Offset)
    ∧ (∀ (offsets : List OffsetRow) (r : OffsetRow),
        r ∈ upsertBothSem offsets group row.Offset →
        r.consumer_group ≠ group → r ∈ offsets) := by
  refine ⟨rfl, rfl, ?_, ?_, ?_⟩
  · intro offsets
    exact upsertBothSem_find offsets group row.Offset
  · intro offsets r hr hne
    exact upsertBothSem_others offsets group row.Offset r hr hne
  · intro offsets r hr hne
    exact upsertBothSem_others_rev offsets group row.Offset r hr hne

theorem ackMessageQuery_spec_witness :
    findRow (upsertBothSem exOffRows "g" exRow.Offset) "g" = some ⟨"g", some 5, 5⟩ :=
  (ackMessageQuery_spec exOffsets "t" exRow "g").2.2.1 exOffRows

/-- C4: the mark-consumed statement produced by ConsumedMessageQuery upserts
only offset_consumed to the fetched row's offset, leaves offset_acked
untouched, binds exactly the row's offset and the consumer group, and its
output is identical for any two consumerULID values. -/
theorem consumedMessageQuery_spec (a : DefaultSQLiteOffsetsAdapter) (topic : String) (row : Row)
    (group : String) :
    (∀ u1 u2 : String,
        a.ConsumedMessageQuery topic row group u1 = a.ConsumedMessageQuery topic row group u2)
    ∧ (∀ u : String, (a.ConsumedMessageQuery topic row group u).Args =
        [SqlArg.i row.Offset, SqlArg.s group])
    ∧ (∀ u : String, (a.ConsumedMessageQuery topic row group u).Query =
        "INSERT INTO " ++ a.MessagesOffsetsTable topic ++
        " (offset_consumed, consumer_group)\n\t\tVALUES (?, ?) ON DUPLICATE KEY UPDATE offset_consumed=VALUES(offset_consumed)")
    ∧ (∀ (offsets : List OffsetRow) (r0 : OffsetRow),
        findRow offsets group = some r0 →
        findRow (upsertConsumedSem offsets group row.Offset) group =
          some ⟨group, r0.offset_acked, row.Offset⟩)
    ∧ (∀ offsets : List OffsetRow,
        findRow offsets group = none →
        upsertConsumedSem offsets group row.Offset =
          offsets ++ [⟨group, none, row.Offset⟩])
    ∧ (∀ (offsets : List OffsetRow) (r : OffsetRow), r ∈ offsets →
        ∃ r2 ∈ upsertConsumedSem offsets group row.Offset,
          r2.consumer_group = r.consumer_group ∧ r2.offset_acked = r.offset_acked) := by
  refine ⟨fun u1 u2 => rfl, fun u => rfl, fun u => rfl, ?_, ?_, ?_⟩
  · intro offsets r0 h
    exact upsertConsumedSem_find_present offsets group row.Offset r0 h
  · intro offsets h
    exact upsertConsumedSem_absent offsets group row.Offset h
  · intro offsets r hr
    exact upsertConsumedSem_acked_kept offsets group row.Offset r hr

theorem consumedMessageQuery_spec_witness :
    findRow (upsertConsumedSem exOffRows "g" exRow.Offset) "g" = some ⟨"g", some 1, 5⟩ :=
  (consumedMessageQuery_spec exOffsets "t" exRow "g").2.2.2.1 exOffRows ⟨"g", some 1, 1⟩
    (by decide)

/-- Example message with one metadata pair. -/
def exMsg : Msg := ⟨"id1", "hello", [(['k'], ['v'])]⟩

/-- Example always-failing metadata encoder. -/
def exMarshalFail : List (Str × Str) → Except String String := fun _ => .error "boom"

/-- C5: if marshaling any message's metadata fails, InsertQuery returns an
error naming the offending message together with an empty statement; if
marshaling succeeds for every message it returns one batch statement binding
(uuid, payload, encoded metadata) per message in order, with no error. -/
theorem insertQueryWith_spec (marshal : List (Str × Str) → Except String String)
    (s : DefaultSQLiteSchema) (topic : String) (msgs : List Msg) :
    ((∃ m ∈ msgs, ∃ e, marshal m.Metadata = .error e) →
      (s.insertQueryWith marshal topic msgs).1 = ⟨"", []⟩ ∧
      ∃ m ∈ msgs, ∃ e, marshal m.Metadata = .error e ∧
        (s.insertQueryWith marshal topic msgs).2 =
          some ("could not marshal metadata into JSON for message " ++ m.UUID ++ ": " ++ e))
    ∧ (∀ enc : Msg → String, (∀ m ∈ msgs, marshal m.Metadata = .ok (enc m)) →
        s.insertQueryWith marshal topic msgs =
          (⟨"INSERT INTO " ++ s.MessagesTable topic ++ " (uuid, payload, metadata) VALUES " ++
              trimRightCommas (repeatStr "(?,?,?)," msgs.length),
            (msgs.map
              (fun m => [SqlArg.s m.UUID, SqlArg.s m.Payload, SqlArg.s (enc m)])).flatten⟩,
           none)) := by
  constructor
  · intro hex
    obtain ⟨m, hm, e, he, harg⟩ := insertArgs_err marshal msgs hex
    refine ⟨?_, m, hm, e, he, ?_⟩
    · simp only [DefaultSQLiteSchema.insertQueryWith, harg]
    · simp only [DefaultSQLiteSchema.insertQueryWith, harg]
  · intro enc hok
    simp only [DefaultSQLiteSchema.insertQueryWith, insertArgs_ok marshal enc msgs hok]

theorem insertQueryWith_spec_witness :
    (exSchema.insertQueryWith exMarshalFail "t" [exMsg]).1 = ⟨"", []⟩ ∧
    (exSchema.insertQueryWith jsonMarshalMeta "t" [exMsg]).2 = none := by
  constructor
  · exact ((insertQueryWith_spec exMarshalFail exSchema "t" [exMsg]).1
      ⟨exMsg, List.mem_singleton.mpr rfl, "boom", rfl⟩).1
  · have h := (insertQueryWith_spec jsonMarshalMeta exSchema "t" [exMsg]).2
      (fun m => String.mk (encMeta m.Metadata)) (fun m _ => rfl)
    exact congrArg Prod.snd h

/-- C6: round trip — encoding a message's metadata and payload as done by
InsertQuery and decoding them as done by UnmarshalMessage yields a message
with metadata and payload identical to the original. -/
theorem insert_unmarshal_roundtrip (s : DefaultSQLiteSchema) (topic : String) (m : Msg)
    (off : Int) :
    (s.InsertQuery topic [m]).1.Args =
      [SqlArg.s m.UUID, SqlArg.s m.Payload, SqlArg.s (String.mk (encMeta m.Metadata))]
    ∧ (s.InsertQuery topic [m]).2 = none
    ∧ s.UnmarshalMessage
        (.ok ⟨off, m.UUID, m.Payload, some (String.mk (encMeta m.Metadata))⟩) =
        (⟨off, m.UUID, m.Payload, some (String.mk (encMeta m.Metadata)),
          some ⟨m.UUID, m.Payload, m.Metadata⟩⟩, none) := by
  refine ⟨rfl, rfl, ?_⟩
  have hd : decodeMeta (String.mk (encMeta m.Metadata)).data = some m.Metadata := by
    rw [show (String.mk (encMeta m.Metadata)).data = encMeta m.Metadata from rfl]
    exact decodeMeta_encMeta m.Metadata
  simp only [DefaultSQLiteSchema.UnmarshalMessage, hd]

/-- C7: the LIMIT in the fetch statement equals the configured
SubscribeBatchSize, and equals the default 100 whenever the batch size is
unset (zero value). -/
theorem selectQuery_limit_spec (s : DefaultSQLiteSchema) (topic group : String)
    (oa : OffsetsAdapter) :
    (∃ u, (s.SelectQuery topic group oa).Query.data =
        u ++ ("LIMIT ".data ++ (toString s.batchSize).data))
    ∧ (s.SubscribeBatchSize = 0 → s.batchSize = 100)
    ∧ (s.SubscribeBatchSize ≠ 0 → s.batchSize = s.SubscribeBatchSize) := by
  refine ⟨?_, ?_, ?_⟩
  · refine ⟨"\n\t\tSELECT offset, uuid, payload, metadata FROM ".data ++
      ((s.MessagesTable topic).data ++ ("\n\t\tWHERE \n\t\t\toffset > (".data ++
        ((oa.NextOffsetQuery topic group).Query.data ++
          ")\n\t\tORDER BY \n\t\t\toffset ASC\n\t\t".data))), ?_⟩
    have hsplit : (")\n\t\tORDER BY \n\t\t\toffset ASC\n\t\tLIMIT " : String).data =
        ")\n\t\tORDER BY \n\t\t\toffset ASC\n\t\t".data ++ "LIMIT ".data := by decide
    simp only [DefaultSQLiteSchema.SelectQuery, String.data_append, hsplit,
      List.append_assoc, List.cons_append, List.nil_append]
  · intro h
    simp [DefaultSQLiteSchema.batchSize, h]
  · intro h
    simp [DefaultSQLiteSchema.batchSize, h]

theorem selectQuery_limit_spec_witness :
    exSchemaZero.batchSize = 100 ∧ exSchema.batchSize = 2 :=
  ⟨(selectQuery_limit_spec exSchemaZero "t" "g" exOA).2.1 rfl,
   (selectQuery_limit_spec exSchema "t" "g" exOA).2.2 (by decide)⟩

/-- Example schema state holding one table. -/
def exDb : Db := ⟨[("watermill_t", [])]⟩

/-- C8: the schema-initialization statements of both adapters are idempotent
create-if-not-exists statements: running one when the table exists produces
no error and leaves rows untouched, and running it twice equals running it
once. -/
theorem schemaInit_spec (s : DefaultSQLiteSchema) (a : DefaultSQLiteOffsetsAdapter)
    (topic : String) :
    (∃ q1, s.SchemaInitializingQueries topic = [q1] ∧ q1.Args = [] ∧
      ∃ t, q1.Query.data = "CREATE TABLE IF NOT EXISTS ".data ++ t)
    ∧ (∃ q2, a.SchemaInitializingQueries topic = [q2] ∧ q2.Args = [] ∧
      ∃ w t, (∀ c ∈ w, c = '\n' ∨ c = '\t') ∧
        q2.Query.data = w ++ ("CREATE TABLE IF NOT EXISTS ".data ++ t))
    ∧ (∀ (db : Db) (name : String), (runCreateTableIfNotExists db name).isSome)
    ∧ (∀ (db : Db) (name : String) (db1 : Db),
        runCreateTableIfNotExists db name = some db1 →
        runCreateTableIfNotExists db1 name = some db1)
    ∧ (∀ (db : Db) (name : String) (db1 : Db),
        runCreateTableIfNotExists db name = some db1 →
        ∀ tb ∈ db.tables, tb ∈ db1.tables) := by
  refine ⟨?_, ?_, ?_, ?_, ?_⟩
  · exact ⟨_, rfl, rfl, _, by
      simp only [DefaultSQLiteSchema.SchemaInitializingQueries, strJoin, String.data_append,
        List.append_assoc]
      rfl⟩
  · have hsplit : ("\n\t\t\t\tCREATE TABLE IF NOT EXISTS " : String).data =
        "\n\t\t\t\t".data ++ "CREATE TABLE IF NOT EXISTS ".data := by decide
    exact ⟨_, rfl, rfl, "\n\t\t\t\t".data, _, by decide, by
      simp only [DefaultSQLiteOffsetsAdapter.SchemaInitializingQueries, String.data_append,
        hsplit, List.append_assoc]
      rfl⟩
  · intro db name
    by_cases h : db.tables.any (fun t => t.1 = name) = true
    · simp [runCreateTableIfNotExists, h]
    · simp [runCreateTableIfNotExists, h]
  · intro db name db1 h
    by_cases h0 : db.tables.any (fun t => t.1 = name) = true
    · rw [runCreateTableIfNotExists, if_pos h0] at h
      rw [← Option.some.inj h, runCreateTableIfNotExists, if_pos h0]
    · rw [runCreateTableIfNotExists, if_neg h0] at h
      rw [← Option.some.inj h, runCreateTableIfNotExists, if_pos ?_]
      simp [List.any_append]
  · intro db name db1 h tb htb
    by_cases h0 : db.tables.any (fun t => t.1 = name) = true
    · rw [runCreateTableIfNotExists, if_pos h0] at h
      rw [← Option.some.inj h]
      exact htb
    · rw [runCreateTableIfNotExists, if_neg h0] at h
      rw [← Option.some.inj h]
      exact List.mem_append_left _ htb

theorem schemaInit_spec_witness :
    runCreateTableIfNotExists exDb "watermill_t" = some exDb :=
  (schemaInit_spec exSchema exOffsets "t").2.2.2.1 ⟨[]⟩ "watermill_t" exDb (by decide)

/-- C9: a fetched row whose metadata blob is non-null but cannot be parsed
makes UnmarshalMessage fail with the decode error and the empty row, and a
decode failure on one row does not affect sibling rows already decoded. -/
theorem unmarshalMessage_decode_err_spec (s : DefaultSQLiteSchema) :
    (∀ (sc : Scanned) (blob : String), sc.Metadata = some blob →
      decodeMeta blob.data = none →
      s.UnmarshalMessage (.ok sc) = (emptyRow, some "could not unmarshal metadata as JSON"))
    ∧ (∀ (rows : List (Except String Scanned)) (bad : Except String Scanned),
        ((rows ++ [bad]).map s.UnmarshalMessage).take rows.length =
          rows.map s.UnmarshalMessage) := by
  constructor
  · intro sc blob hm hd
    obtain ⟨o, u, p, md⟩ := sc
    replace hm : md = some blob := hm
    subst hm
    simp only [DefaultSQLiteSchema.UnmarshalMessage, hd]
  · intro rows bad
    rw [List.map_append, ← List.length_map rows s.UnmarshalMessage]
    exact List.take_left _ _

theorem unmarshalMessage_decode_err_spec_witness :
    exSchema.UnmarshalMessage (.ok ⟨1, "u", "p", some "x"⟩) =
      (emptyRow, some "could not unmarshal metadata as JSON") :=
  (unmarshalMessage_decode_err_spec exSchema).1 ⟨1, "u", "p", some "x"⟩ "x" rfl (by decide)

/-- C10: a fetched row whose metadata blob is null makes UnmarshalMessage
succeed with an empty metadata mapping, taking uuid and payload from the
scanned row. -/
theorem unmarshalMessage_null_metadata_spec (s : DefaultSQLiteSchema) (sc : Scanned)
    (h : sc.Metadata = none) :
    s.UnmarshalMessage (.ok sc) =
      (⟨sc.Offset, sc.UUID, sc.Payload, none, some ⟨sc.UUID, sc.Payload, []⟩⟩, none) := by
  obtain ⟨o, u, p, md⟩ := sc
  replace h : md = none := h
  subst h
  rfl

theorem unmarshalMessage_null_metadata_spec_witness :
    exSchema.UnmarshalMessage (.ok ⟨7, "u7", "p7", none⟩) =
      (⟨7, "u7", "p7", none, some ⟨"u7", "p7", []⟩⟩, none) :=
  unmarshalMessage_null_metadata_spec exSchema ⟨7, "u7", "p7", none⟩ rfl
